import Mathlib

/-!
Verification of the DroneConroler repository (ArduPilot formation controller).

Shallow embedding of `src/Software/Common/Drone.py` and
`src/Software/Common/flight_controller.py`.

Python floats are modelled as exact rationals (`ℚ`) where the code only uses
field operations, and as reals (`ℝ`) where the code calls `math.sqrt`,
`math.cos`, `math.sin`, `math.pi`.  Wall-clock time is idealised: one loop
iteration of a 1-second polling loop advances time by exactly one second.
Fallible code (Python `ZeroDivisionError`) is embedded with `Option`.
-/

/-- A 3D position / velocity with rational coordinates
(`[x, y, z]` lists in the Python source). -/
structure Vec3 where
  x : ℚ
  y : ℚ
  z : ℚ
  deriving DecidableEq, Repr

/-- A 3D position with real coordinates, for the code paths that use
`math.sin` / `math.cos` / `math.sqrt`. -/
structure Vec3R where
  x : ℝ
  y : ℝ
  z : ℝ

/-! ### Formation engine (`ArduPilotFormationController.*_formation`)

Each pattern in the source is a method reading `self.formation_center`,
`self.formation_spacing` and `self.drones`; here they are pure functions of
the center `c`, the spacing `s` and the vehicle count `n = len(self.drones)`.
-/

/-- `line_formation` (Drone.py 283-294):
`x = center[0] + (i - len(drones)/2) * spacing`, `y = center[1]`,
`z = center[2]` for `i in range(n)`; Python `/` is real-valued division. -/
def line_formation (c : Vec3) (s : ℚ) (n : ℕ) : List Vec3 :=
  (List.range n).map fun (i : ℕ) =>
    ⟨c.x + ((i : ℚ) - (n : ℚ) / 2) * s, c.y, c.z⟩

/-- `triangle_formation` (Drone.py 296-332): leader at center, two wings at
`(-s, ∓s)` when present, and every drone `i ≥ 3` in a second row at
`x = c.x - 2*s`, `y = c.y + (i - 3 - (n-4)/2) * s / 2`. -/
def triangle_formation (c : Vec3) (s : ℚ) (n : ℕ) : List Vec3 :=
  (if 1 ≤ n then [⟨c.x, c.y, c.z⟩] else []) ++
  (if 2 ≤ n then [⟨c.x - s, c.y - s, c.z⟩] else []) ++
  (if 3 ≤ n then [⟨c.x - s, c.y + s, c.z⟩] else []) ++
  (List.range' 3 (n - 3)).map fun (i : ℕ) =>
    ⟨c.x - 2 * s, c.y + ((i : ℚ) - 3 - ((n : ℚ) - 4) / 2) * s / 2, c.z⟩

/-- The four corner offsets of `square_formation` (Drone.py 340-345), in
source order: front right, back right, back left, front left.  The third
component of the Python tuples is never read by the loop. -/
def squareCorner (s : ℚ) : ℕ → ℚ × ℚ
  | 0 => (s / 2, s / 2)
  | 1 => (-s / 2, s / 2)
  | 2 => (-s / 2, -s / 2)
  | _ => (s / 2, -s / 2)

/-- `square_formation` (Drone.py 334-361): first four drones on the corners,
extra drones stacked above center with `z = c.z + (i - 3) * 2`. -/
def square_formation (c : Vec3) (s : ℚ) (n : ℕ) : List Vec3 :=
  (List.range n).map fun (i : ℕ) =>
    if i < 4 then
      ⟨c.x + (squareCorner s i).1, c.y + (squareCorner s i).2, c.z⟩
    else
      ⟨c.x, c.y, c.z + ((i : ℚ) - 3) * 2⟩

/-- `diamond_formation` (Drone.py 377-421): leader, two wings, tail, extra
drones stacked above center with `z = c.z + (i - 3) * 2`. -/
def diamond_formation (c : Vec3) (s : ℚ) (n : ℕ) : List Vec3 :=
  (if 1 ≤ n then [⟨c.x + s, c.y, c.z⟩] else []) ++
  (if 2 ≤ n then [⟨c.x, c.y - s, c.z⟩] else []) ++
  (if 3 ≤ n then [⟨c.x, c.y + s, c.z⟩] else []) ++
  (if 4 ≤ n then [⟨c.x - s, c.y, c.z⟩] else []) ++
  (List.range' 4 (n - 4)).map fun (i : ℕ) =>
    ⟨c.x, c.y, c.z + ((i : ℚ) - 3) * 2⟩

/-- Fallible map over a list: models a Python for-loop whose body may raise
an exception (`none`), short-circuiting the rest of the loop. -/
def listMapOpt {α β : Type} (f : α → Option β) : List α → Option (List β)
  | [] => some []
  | a :: l =>
    match f a, listMapOpt f l with
    | some b, some bs => some (b :: bs)
    | _, _ => none

/-- `circle_formation` (Drone.py 363-375): drone `i` at angle
`2π·i / len(drones)` on a circle of radius `spacing`.  The division by
`len(self.drones)` is a Python float division that raises
`ZeroDivisionError` when the count is zero, so each loop iteration is
embedded fallibly: `none` models the exception. -/
noncomputable def circle_formation (c : Vec3R) (radius : ℝ) (n : ℕ) :
    Option (List Vec3R) :=
  listMapOpt (fun (i : ℕ) =>
    if n = 0 then none
    else
      some ⟨c.x + radius * Real.cos (2 * Real.pi * (i : ℝ) / (n : ℝ)),
            c.y + radius * Real.sin (2 * Real.pi * (i : ℝ) / (n : ℝ)),
            c.z⟩) (List.range n)

lemma listMapOpt_some {α β : Type} (g : α → β) (l : List α) :
    listMapOpt (fun a => some (g a)) l = some (l.map g) := by
  induction l with
  | nil => rfl
  | cons a l ih => simp [listMapOpt, ih]

lemma circle_formation_pos {c : Vec3R} {radius : ℝ} {n : ℕ} (hn : n ≠ 0) :
    circle_formation c radius n =
      some ((List.range n).map fun (i : ℕ) =>
        ⟨c.x + radius * Real.cos (2 * Real.pi * (i : ℝ) / (n : ℝ)),
         c.y + radius * Real.sin (2 * Real.pi * (i : ℝ) / (n : ℝ)),
         c.z⟩) := by
  unfold circle_formation
  simp only [hn, if_false]
  exact listMapOpt_some _ _

lemma line_formation_length (c : Vec3) (s : ℚ) (n : ℕ) :
    (line_formation c s n).length = n := by
  simp [line_formation]

lemma triangle_formation_length (c : Vec3) (s : ℚ) (n : ℕ) :
    (triangle_formation c s n).length = n := by
  unfold triangle_formation
  rcases Nat.lt_or_ge n 3 with h | h
  · interval_cases n <;> simp
  · have h1 : 1 ≤ n := by omega
    have h2 : 2 ≤ n := by omega
    simp [h1, h2, h]
    omega

lemma square_formation_length (c : Vec3) (s : ℚ) (n : ℕ) :
    (square_formation c s n).length = n := by
  simp [square_formation]

lemma diamond_formation_length (c : Vec3) (s : ℚ) (n : ℕ) :
    (diamond_formation c s n).length = n := by
  unfold diamond_formation
  rcases Nat.lt_or_ge n 4 with h | h
  · interval_cases n <;> simp
  · have h1 : 1 ≤ n := by omega
    have h2 : 2 ≤ n := by omega
    have h3 : 3 ≤ n := by omega
    simp [h1, h2, h3, h]
    omega

lemma circle_formation_length (c : Vec3R) (radius : ℝ) (n : ℕ) :
    (circle_formation c radius n).map List.length = some n := by
  rcases Nat.eq_zero_or_pos n with h | h
  · subst h; rfl
  · rw [circle_formation_pos (Nat.pos_iff_ne_zero.mp h)]
    simp

/-- C1: every pattern yields exactly `n` positions for `n` registered
vehicles, and no pattern fails for any non-negative count; in particular
`circle_formation` returns `some` list (no `ZeroDivisionError`) even at
count 0, because its loop body never runs there. -/
theorem formations_length_and_total (c : Vec3) (cr : Vec3R) (s : ℚ) (r : ℝ)
    (n : ℕ) :
    (line_formation c s n).length = n ∧
    (triangle_formation c s n).length = n ∧
    (square_formation c s n).length = n ∧
    (diamond_formation c s n).length = n ∧
    (circle_formation cr r n).map List.length = some n :=
  ⟨line_formation_length c s n, triangle_formation_length c s n,
   square_formation_length c s n, diamond_formation_length c s n,
   circle_formation_length cr r n⟩

/-! ### `FormationDrone.move_to_target` (Drone.py 131-157)

The method also stores `target` into `self.target_position`; the observable
behaviour verified here is the velocity it emits through `send_velocity`
(the `yaw_rate` argument is the constant 0 in both branches).
-/

/-- `move_to_target` (Drone.py 131-157), returning the velocity passed to
`send_velocity`: direction components `target - position`, distance
`math.sqrt(dx*dx + dy*dy + dz*dz)`; if `distance > 0.1` each normalized,
speed-scaled component is limited with `max(-3.0, min(3.0, v))`, otherwise
the drone is stopped with `send_velocity(0, 0, 0)`. -/
noncomputable def move_to_target (position target : Vec3R) (speed : ℝ) :
    Vec3R :=
  let dx := target.x - position.x
  let dy := target.y - position.y
  let dz := target.z - position.z
  let distance := Real.sqrt (dx * dx + dy * dy + dz * dz)
  if distance > 0.1 then
    ⟨max (-3.0) (min 3.0 (dx / distance * speed)),
     max (-3.0) (min 3.0 (dy / distance * speed)),
     max (-3.0) (min 3.0 (dz / distance * speed))⟩
  else
    ⟨0, 0, 0⟩

/-- Clamp of one velocity axis to the interval `[-3.0, 3.0]` (spec wording:
"each axis independently clamped to the interval [-3.0, 3.0] m/s"). -/
noncomputable def clampAxis (v : ℝ) : ℝ := min 3.0 (max (-3.0) v)

/-- Modelled from the spec's words for `moveToTarget` (§4.2, refinement
counterpart of `move_to_target`): the direction vector target − position;
when the Euclidean distance is at or within 0.1 m, the zero velocity;
otherwise the unit direction scaled by `speed`, each axis clamped. -/
noncomputable def moveToTargetSpec (position target : Vec3R) (speed : ℝ) :
    Vec3R :=
  let d : Vec3R := ⟨target.x - position.x, target.y - position.y,
                    target.z - position.z⟩
  let dist := Real.sqrt (d.x ^ 2 + d.y ^ 2 + d.z ^ 2)
  if dist ≤ 0.1 then ⟨0, 0, 0⟩
  else ⟨clampAxis (d.x / dist * speed), clampAxis (d.y / dist * speed),
        clampAxis (d.z / dist * speed)⟩

lemma clampAxis_comm (v : ℝ) : max (-3.0) (min 3.0 v) = clampAxis v := by
  unfold clampAxis
  rw [max_min_distrib_left]
  norm_num

/-- C2: `move_to_target` agrees everywhere with the specification's
description: direction `target - position`; beyond 0.1 m Euclidean
distance the unit direction scaled by `speed` with each axis independently
clamped to `[-3.0, 3.0]`; at or within 0.1 m the zero velocity. -/
theorem move_to_target_meets_spec (position target : Vec3R) (speed : ℝ) :
    move_to_target position target speed =
      moveToTargetSpec position target speed := by
  unfold move_to_target moveToTargetSpec
  have hsq : ∀ x : ℝ, x * x = x ^ 2 := fun x => (sq x).symm
  simp only [hsq]
  rcases le_or_lt (Real.sqrt ((target.x - position.x) ^ 2 +
      (target.y - position.y) ^ 2 + (target.z - position.z) ^ 2)) 0.1 with h | h
  · simp [not_lt.mpr h, h]
  · simp [h, not_le.mpr h, clampAxis_comm]

/-- Sanity check of the embedding, first example of §8: from position
`(0,0,0)` toward target `(10,0,0)` at speed 1 the emitted velocity is
`(1,0,0)`. -/
lemma move_to_target_example :
    move_to_target ⟨0, 0, 0⟩ ⟨10, 0, 0⟩ 1 = ⟨1, 0, 0⟩ := by
  unfold move_to_target
  have h10 : Real.sqrt ((10 - 0) * (10 - 0) + (0 - 0) * (0 - 0) +
      (0 - 0) * (0 - 0)) = 10 := by
    rw [show ((10 - 0) * (10 - 0) + (0 - 0) * (0 - 0) + (0 - 0) * (0 - 0)
        : ℝ) = 10 ^ 2 by norm_num]
    exact Real.sqrt_sq (by norm_num)
  simp only [h10]
  norm_num

/-! ### `DroneController.takeoff` wait loop (flight_controller.py 84-124)

After sending `MAV_CMD_NAV_TAKEOFF` the method polls `GLOBAL_POSITION_INT`
telemetry once per second (blocking `recv_match` with a 1-second timeout
followed by `time.sleep(1)`) for at most 30 seconds.  A message is
`some a` with `a = msg.relative_alt / 1000.0` meters, `none` a receive
timeout (the loop body is skipped, `if msg:`).  The state carried across
iterations is `stable_count` (initially 0) and `last_alt` (initially 0).
-/

/-- The body of the takeoff polling loop, on the raw message stream.
Faithful to flight_controller.py 100-121: a success at `current_alt >=
altitude * 0.90`; otherwise `stable_count` is incremented when
`abs(current_alt - last_alt) < 0.1` (else reset to 0) and a success is
declared when it reaches 3 with `current_alt >= altitude * 0.85`. -/
def takeoffLoop (altitude : ℚ) : List (Option ℚ) → ℕ → ℚ → Bool
  | [], _, _ => false
  | none :: ms, stable, last => takeoffLoop altitude ms stable last
  | some a :: ms, stable, last =>
    if altitude * 0.90 ≤ a then true
    else if |a - last| < 0.1 then
      if 3 ≤ stable + 1 ∧ altitude * 0.85 ≤ a then true
      else takeoffLoop altitude ms (stable + 1) a
    else takeoffLoop altitude ms 0 a

/-- Same loop, restricted to the messages that actually carried an
altitude sample (`reduceOption` of the stream): analysis helper. -/
def altsLoop (altitude : ℚ) : List ℚ → ℕ → ℚ → Bool
  | [], _, _ => false
  | a :: as, stable, last =>
    if altitude * 0.90 ≤ a then true
    else if |a - last| < 0.1 then
      if 3 ≤ stable + 1 ∧ altitude * 0.85 ≤ a then true
      else altsLoop altitude as (stable + 1) a
    else altsLoop altitude as 0 a

/-- `DroneController.takeoff`'s wait loop: one iteration per second means at
most 30 messages are processed within the 30-second window; exhausting the
window returns false (flight_controller.py 123-124). -/
def takeoff_wait (altitude : ℚ) (msgs : List (Option ℚ)) : Bool :=
  takeoffLoop altitude (msgs.take 30) 0 0

lemma takeoffLoop_reduceOption (altitude : ℚ) :
    ∀ (ms : List (Option ℚ)) (stable : ℕ) (last : ℚ),
      takeoffLoop altitude ms stable last =
        altsLoop altitude ms.reduceOption stable last := by
  intro ms
  induction ms with
  | nil => intro st last; rfl
  | cons m ms ih =>
    intro st last
    cases m with
    | none => simp [takeoffLoop, List.reduceOption_cons_of_none, ih]
    | some a =>
      simp only [takeoffLoop, List.reduceOption_cons_of_some, altsLoop]
      split
      · rfl
      · split
        · split
          · rfl
          · exact ih _ _
        · exact ih _ _

/-- The altitude change of sample `i` relative to the previous value of
`last_alt`, which starts at 0 before the first sample. -/
def altDeltaFrom (last : ℚ) (as : List ℚ) (i : ℕ) : ℚ :=
  |as.getD i 0 - (if i = 0 then last else as.getD (i - 1) 0)|

/-- The altitude change the code compares against 0.1 at sample `i`
(`abs(current_alt - last_alt)`, with `last_alt = 0` before sample 0). -/
def altDelta (as : List ℚ) (i : ℕ) : ℚ := altDeltaFrom 0 as i

/-- The value of `stable_count` right after processing sample `i`, when the
loop starts with `stable_count = stable`, `last_alt = last`. -/
def scAtFrom (stable : ℕ) (last : ℚ) (as : List ℚ) : ℕ → ℕ
  | 0 => if altDeltaFrom last as 0 < 0.1 then stable + 1 else 0
  | i + 1 =>
    if altDeltaFrom last as (i + 1) < 0.1 then scAtFrom stable last as i + 1
    else 0

lemma altDeltaFrom_cons_succ (last a : ℚ) (as : List ℚ) (j : ℕ) :
    altDeltaFrom last (a :: as) (j + 1) = altDeltaFrom a as j := by
  cases j with
  | zero => simp [altDeltaFrom]
  | succ k => simp [altDeltaFrom]

lemma scAtFrom_cons (stable : ℕ) (last a : ℚ) (as : List ℚ) :
    ∀ j, scAtFrom stable last (a :: as) (j + 1) =
      scAtFrom (if |a - last| < 0.1 then stable + 1 else 0) a as j := by
  intro j
  induction j with
  | zero =>
    simp only [scAtFrom, altDeltaFrom_cons_succ]
    have h0 : altDeltaFrom last (a :: as) 0 = |a - last| := by
      simp [altDeltaFrom]
    rw [h0]
  | succ k ih =>
    have hunf : scAtFrom stable last (a :: as) (k + 1 + 1) =
        if altDeltaFrom last (a :: as) (k + 1 + 1) < 0.1 then
          scAtFrom stable last (a :: as) (k + 1) + 1
        else 0 := rfl
    rw [hunf, ih, altDeltaFrom_cons_succ]
    rfl

lemma exists_lt_succ_split {P : ℕ → Prop} {n : ℕ} :
    (∃ i, i < n + 1 ∧ P i) ↔ P 0 ∨ ∃ j, j < n ∧ P (j + 1) := by
  constructor
  · rintro ⟨i, hi, hP⟩
    cases i with
    | zero => exact Or.inl hP
    | succ j => exact Or.inr ⟨j, by omega, hP⟩
  · rintro (h | ⟨j, hj, hP⟩)
    · exact ⟨0, by omega, h⟩
    · exact ⟨j + 1, by omega, hP⟩

lemma altsLoop_iff (altitude : ℚ) :
    ∀ (as : List ℚ) (stable : ℕ) (last : ℚ),
      altsLoop altitude as stable last = true ↔
        ∃ i, i < as.length ∧
          (altitude * 0.90 ≤ as.getD i 0 ∨
           (3 ≤ scAtFrom stable last as i ∧
            altitude * 0.85 ≤ as.getD i 0)) := by
  intro as
  induction as with
  | nil => intro st last; simp [altsLoop]
  | cons a as ih =>
    intro st last
    have hsc0 : scAtFrom st last (a :: as) 0 =
        if |a - last| < 0.1 then st + 1 else 0 := by
      simp only [scAtFrom]
      have h0 : altDeltaFrom last (a :: as) 0 = |a - last| := by
        simp [altDeltaFrom]
      rw [h0]
    rw [show (a :: as).length = as.length + 1 from rfl]
    rw [exists_lt_succ_split]
    by_cases h9 : altitude * 0.90 ≤ a
    · simp only [altsLoop, if_pos h9]
      simp [h9]
    · by_cases hd : |a - last| < 0.1
      · by_cases hgo : 3 ≤ st + 1 ∧ altitude * 0.85 ≤ a
        · simp only [altsLoop, if_neg h9, if_pos hd, if_pos hgo]
          have hP : (3 ≤ scAtFrom st last (a :: as) 0 ∧
              altitude * 0.85 ≤ (a :: as).getD 0 0) := by
            rw [hsc0, if_pos hd]
            simpa using hgo
          simp only [List.getD_cons_zero] at hP ⊢
          constructor
          · intro _; exact Or.inl (Or.inr hP)
          · intro _; trivial
        · simp only [altsLoop, if_neg h9, if_pos hd, if_neg hgo]
          rw [ih (st + 1) a]
          have hP0 : ¬ (altitude * 0.90 ≤ (a :: as).getD 0 0 ∨
              (3 ≤ scAtFrom st last (a :: as) 0 ∧
               altitude * 0.85 ≤ (a :: as).getD 0 0)) := by
            rw [hsc0, if_pos hd]
            simp only [List.getD_cons_zero]
            rintro (h | h)
            · exact h9 h
            · exact hgo h
          constructor
          · rintro ⟨j, hj, hP⟩
            refine Or.inr ⟨j, hj, ?_⟩
            rw [scAtFrom_cons, if_pos hd]
            simpa using hP
          · rintro (h | ⟨j, hj, hP⟩)
            · exact absurd h hP0
            · refine ⟨j, hj, ?_⟩
              rw [scAtFrom_cons, if_pos hd] at hP
              simpa using hP
      · simp only [altsLoop, if_neg h9, if_neg hd]
        rw [ih 0 a]
        have hP0 : ¬ (altitude * 0.90 ≤ (a :: as).getD 0 0 ∨
            (3 ≤ scAtFrom st last (a :: as) 0 ∧
             altitude * 0.85 ≤ (a :: as).getD 0 0)) := by
          rw [hsc0, if_neg hd]
          simp only [List.getD_cons_zero]
          rintro (h | h)
          · exact h9 h
          · omega
        constructor
        · rintro ⟨j, hj, hP⟩
          refine Or.inr ⟨j, hj, ?_⟩
          rw [scAtFrom_cons, if_neg hd]
          simpa using hP
        · rintro (h | ⟨j, hj, hP⟩)
          · exact absurd h hP0
          · refine ⟨j, hj, ?_⟩
            rw [scAtFrom_cons, if_neg hd] at hP
            simpa using hP

lemma scAtFrom_zero_ge (last : ℚ) (as : List ℚ) :
    ∀ (i m : ℕ), m ≤ scAtFrom 0 last as i ↔
      (m ≤ i + 1 ∧ ∀ j, j < m → altDeltaFrom last as (i - j) < 0.1) := by
  intro i
  induction i with
  | zero =>
    intro m
    simp only [scAtFrom]
    by_cases hd : altDeltaFrom last as 0 < 0.1
    · rw [if_pos hd]
      constructor
      · intro hm
        refine ⟨by omega, fun j hj => ?_⟩
        have h0 : (0 : ℕ) - j = 0 := by omega
        rw [h0]; exact hd
      · rintro ⟨hm, _⟩; omega
    · rw [if_neg hd]
      constructor
      · intro hm
        have hm0 : m = 0 := by omega
        subst hm0
        exact ⟨by omega, fun j hj => absurd hj (by omega)⟩
      · rintro ⟨hm, hall⟩
        cases m with
        | zero => omega
        | succ k =>
          exact absurd (by simpa using hall 0 (by omega)) hd
  | succ i ih =>
    intro m
    simp only [scAtFrom]
    by_cases hd : altDeltaFrom last as (i + 1) < 0.1
    · rw [if_pos hd]
      cases m with
      | zero => simp
      | succ k =>
        rw [Nat.succ_le_succ_iff, ih k]
        constructor
        · rintro ⟨hk, hall⟩
          refine ⟨by omega, fun j hj => ?_⟩
          cases j with
          | zero => simpa using hd
          | succ j2 =>
            have heq : i + 1 - (j2 + 1) = i - j2 := by omega
            rw [heq]
            exact hall j2 (by omega)
        · rintro ⟨hk, hall⟩
          refine ⟨by omega, fun j hj => ?_⟩
          have hj1 := hall (j + 1) (by omega)
          have heq : i + 1 - (j + 1) = i - j := by omega
          rwa [heq] at hj1
    · rw [if_neg hd]
      constructor
      · intro hm
        have hm0 : m = 0 := by omega
        subst hm0
        exact ⟨by omega, fun j hj => absurd hj (by omega)⟩
      · rintro ⟨hm, hall⟩
        cases m with
        | zero => omega
        | succ k =>
          exact absurd (by simpa using hall 0 (by omega)) hd

/-- C3: the takeoff wait loop returns true exactly when, among the samples
of the 30-second window, some sample reaches at least 0.9 times the target
altitude, or some sample is at least 0.85 times the target after the
sampled altitude changed by less than 0.1 m at 3 consecutive samples (the
change of sample 0 being taken against the loop's initial `last_alt = 0`);
with no such sample the loop exhausts the window and returns false. -/
theorem takeoff_wait_success_iff (altitude : ℚ) (msgs : List (Option ℚ)) :
    takeoff_wait altitude msgs = true ↔
      ∃ i, i < ((msgs.take 30).reduceOption).length ∧
        (0.90 * altitude ≤ (msgs.take 30).reduceOption.getD i 0 ∨
         (2 ≤ i ∧
          (∀ j, j < 3 →
            altDelta ((msgs.take 30).reduceOption) (i - j) < 0.1) ∧
          0.85 * altitude ≤ (msgs.take 30).reduceOption.getD i 0)) := by
  unfold takeoff_wait
  rw [takeoffLoop_reduceOption, altsLoop_iff]
  simp only [altDelta]
  constructor
  · rintro ⟨i, hi, h | ⟨hsc, h85⟩⟩
    · exact ⟨i, hi, Or.inl (by rwa [mul_comm] at h)⟩
    · have hge := (scAtFrom_zero_ge 0 _ i 3).mp hsc
      exact ⟨i, hi, Or.inr ⟨by omega, fun j hj => hge.2 j hj,
        by rwa [mul_comm] at h85⟩⟩
  · rintro ⟨i, hi, h | ⟨h2, hall, h85⟩⟩
    · exact ⟨i, hi, Or.inl (by rwa [mul_comm])⟩
    · refine ⟨i, hi, Or.inr ⟨?_, by rwa [mul_comm]⟩⟩
      exact (scAtFrom_zero_ge 0 _ i 3).mpr ⟨by omega, hall⟩

/-! ### Coordinator sequences (`ArduPilotFormationController`)

The multi-vehicle operations are embedded as functions from the per-vehicle
outcomes (the booleans the vehicle-level calls return) to the returned
boolean together with the trace of externally visible events, in order:
sleeps, per-vehicle commands, velocity setpoints.
-/

/-- An externally visible event of a coordinator operation. -/
inductive Ev where
  | sleep (secs : ℚ)
  | takeoffCmd (i : ℕ)
  | armCmd (i : ℕ)
  | velCmd (i : ℕ) (vx vy vz : ℚ)
  deriving DecidableEq, Repr

/-- The `for i, drone in enumerate(self.drones)` loop of `takeoff_formation`
(Drone.py 239-249): a 1-second sleep before every vehicle except index 0,
then `drone.takeoff(altitude)`; the first failure returns false at once.
`outcomes` lists each vehicle's takeoff result in registration order. -/
def tfLoop : ℕ → List Bool → Bool × List Ev
  | _, [] => (true, [])
  | i, o :: rest =>
    let pre : List Ev := if 0 < i then [Ev.sleep 1] else []
    if o then
      ((tfLoop (i + 1) rest).1,
       pre ++ Ev.takeoffCmd i :: (tfLoop (i + 1) rest).2)
    else (false, pre ++ [Ev.takeoffCmd i])

/-- `takeoff_formation` (Drone.py 233-256): the staggered per-vehicle loop,
then `time.sleep(10)` and true once every vehicle took off. -/
def takeoff_formation (outcomes : List Bool) : Bool × List Ev :=
  let r := tfLoop 0 outcomes
  if r.1 then (true, r.2 ++ [Ev.sleep 10]) else (false, r.2)

/-- The events of one takeoff attempt of vehicle `i` as the specification
words them: a 1-second pre-delay for every vehicle except vehicle 0,
then the vehicle's takeoff command. -/
def tfAttempt (i : ℕ) : List Ev :=
  (if 0 < i then [Ev.sleep 1] else []) ++ [Ev.takeoffCmd i]

/-- Modelled from the spec's words for `takeoffFormation` (§4.4, refinement
counterpart of `takeoff_formation`): attempts run in registration order up
to and including the first failing vehicle (index `k =` first failure);
on any failure the result is false with no further vehicle attempted; when
all `n` vehicles succeed (`k = n`) a fixed 10-second settle sleep follows
and the result is true. -/
def takeoffFormationSpec (outcomes : List Bool) : Bool × List Ev :=
  let n := outcomes.length
  let k := outcomes.findIdx (fun o => !o)
  let attempts := (List.range' 0 (min (k + 1) n)).flatMap tfAttempt
  if k = n then (true, attempts ++ [Ev.sleep 10]) else (false, attempts)

lemma tfLoop_eq (outcomes : List Bool) : ∀ b, tfLoop b outcomes =
    (outcomes.all id,
     (List.range' b (min (outcomes.findIdx (fun o => !o) + 1)
        outcomes.length)).flatMap tfAttempt) := by
  induction outcomes with
  | nil => intro b; simp [tfLoop]
  | cons o rest ih =>
    intro b
    cases o with
    | false =>
      show (false,
        (if 0 < b then [Ev.sleep 1] else []) ++ [Ev.takeoffCmd b]) = _
      simp only [List.findIdx_cons, Bool.not_false, cond_true, List.all_cons,
        id, Bool.false_and, List.length_cons]
      have hmin : min (0 + 1) (rest.length + 1) = 1 := by omega
      rw [hmin]
      simp [List.range', tfAttempt]
    | true =>
      show ((tfLoop (b + 1) rest).1,
        (if 0 < b then [Ev.sleep 1] else []) ++
          Ev.takeoffCmd b :: (tfLoop (b + 1) rest).2) = _
      rw [ih (b + 1)]
      simp only [List.findIdx_cons, Bool.not_true, cond_false, List.all_cons,
        id, Bool.true_and, List.length_cons]
      have hmin : min (rest.findIdx (fun o => !o) + 1 + 1) (rest.length + 1) =
          min (rest.findIdx (fun o => !o) + 1) rest.length + 1 := by omega
      rw [hmin, List.range'_succ]
      simp [tfAttempt]

lemma all_eq_findIdx_length (outcomes : List Bool) :
    outcomes.all id = true ↔
      outcomes.findIdx (fun o => !o) = outcomes.length := by
  induction outcomes with
  | nil => simp
  | cons o rest ih =>
    cases o with
    | false =>
      simp only [List.all_cons, id, Bool.false_and, List.findIdx_cons,
        Bool.not_false, cond_true, List.length_cons]
      constructor
      · intro h; cases h
      · intro h
        have : rest.findIdx (fun o => !o) ≤ rest.length :=
          List.findIdx_le_length _
        omega
    | true =>
      simp only [List.all_cons, id, Bool.true_and, List.findIdx_cons,
        Bool.not_true, cond_false, List.length_cons]
      rw [ih]
      omega

/-- C4: `takeoff_formation` behaves exactly as the specification describes:
vehicles take off in registration order, with a 1-second delay before every
vehicle except vehicle 0; the first failed takeoff makes the operation
return false at once, attempting none of the remaining vehicles; when all
succeed, a fixed 10-second settle wait precedes the true result. -/
theorem takeoff_formation_meets_spec (outcomes : List Bool) :
    takeoff_formation outcomes = takeoffFormationSpec outcomes := by
  unfold takeoff_formation takeoffFormationSpec
  rw [tfLoop_eq]
  by_cases h : outcomes.all id = true
  · have hk := (all_eq_findIdx_length outcomes).mp h
    simp [h, hk]
  · have hk : outcomes.findIdx (fun o => !o) ≠ outcomes.length :=
      fun hc => h ((all_eq_findIdx_length outcomes).mpr hc)
    simp [h, hk]

/-- The `for drone in self.drones` loop of `arm_all` (Drone.py 224-229):
every vehicle is sent an arm command, successes are counted. -/
def armLoop : ℕ → List Bool → ℕ × List Ev
  | _, [] => (0, [])
  | i, o :: rest =>
    ((if o then (armLoop (i + 1) rest).1 + 1 else (armLoop (i + 1) rest).1),
     Ev.armCmd i :: (armLoop (i + 1) rest).2)

/-- `arm_all` (Drone.py 219-231): arms every registered vehicle and returns
`success_count == len(self.drones)`.  `outcomes` lists each vehicle's
`drone.arm()` result in registration order. -/
def arm_all (outcomes : List Bool) : Bool × List Ev :=
  (decide ((armLoop 0 outcomes).1 = outcomes.length), (armLoop 0 outcomes).2)

lemma armLoop_eq (outcomes : List Bool) : ∀ b, armLoop b outcomes =
    (outcomes.countP id, (List.range' b outcomes.length).map Ev.armCmd) := by
  induction outcomes with
  | nil => intro b; simp [armLoop]
  | cons o rest ih =>
    intro b
    simp only [armLoop, ih (b + 1), List.countP_cons, List.length_cons,
      List.range'_succ, List.map_cons]
    cases o <;> simp [id]

/-- C5: `arm_all` sends an arm command to every registered vehicle in
registration order — even after a failure — and returns true exactly when
every single arm attempt succeeded. -/
theorem arm_all_conjunctive (outcomes : List Bool) :
    arm_all outcomes =
      (outcomes.all id, (List.range' 0 outcomes.length).map Ev.armCmd) := by
  unfold arm_all
  rw [armLoop_eq]
  have h : (outcomes.countP id = outcomes.length) ↔
      outcomes.all id = true := by
    rw [List.countP_eq_length, List.all_eq_true]
  have hb : decide (outcomes.countP id = outcomes.length) =
      outcomes.all id := by
    cases hall : outcomes.all id
    · simp only [decide_eq_false_iff_not]
      intro hc
      rw [h] at hc
      simp [hc] at hall
    · simp [h, hall]
  rw [hb]

/-- Sanity check of the embedding, §8's `armAll` example: session 2 of 3
fails, sessions 1 and 3 are still attempted, the result is false. -/
lemma arm_all_example : arm_all [true, false, true] =
    (false, [Ev.armCmd 0, Ev.armCmd 1, Ev.armCmd 2]) := by decide

/-- The coordinator state read and written by `stop_formation`:
`formation_active` and the registered vehicle count. -/
structure FormationState where
  active : Bool
  drones : ℕ
  deriving DecidableEq, Repr

/-- `FormationDrone.stop` (Drone.py 159-161): `send_velocity(0, 0, 0)`,
emitted here as the event it publishes for vehicle `i`. -/
def drone_stop (i : ℕ) : Ev := Ev.velCmd i 0 0 0

/-- `stop_formation` (Drone.py 441-446): clears `formation_active`, then
commands every registered vehicle to zero velocity in the same call. -/
def stop_formation (st : FormationState) : FormationState × List Ev :=
  ({ st with active := false }, (List.range st.drones).map drone_stop)

/-- C8: `stop_formation` is idempotent: one call already leaves
`active = false` and immediately sends the zero-velocity command to every
registered session (the full trace `drone_stop 0 … drone_stop (n-1)`), and
a second call reproduces exactly the same state and the same commands. -/
theorem stop_formation_idempotent (st : FormationState) :
    (stop_formation st).1.active = false ∧
    stop_formation (stop_formation st).1 = stop_formation st ∧
    (stop_formation st).2 = (List.range st.drones).map drone_stop :=
  ⟨rfl, rfl, rfl⟩

/-! ### Triangle second row (C6) -/

/-- Modelled from the claim's words (not the source): extra triangle slots
following "the same offset rule as Line": offset index `i - 3` minus half
the number of extra members `n - 3`, times `spacing / 2`, real-valued
division. -/
def triangleClaimedExtra (c : Vec3) (s : ℚ) (n i : ℕ) : Vec3 :=
  ⟨c.x - 2 * s, c.y + (((i : ℚ) - 3) - ((n : ℚ) - 3) / 2) * (s / 2), c.z⟩

/-- C6 counterexample: with center `(0,0,10)`, spacing 5 and 4 vehicles,
the code places slot 3 at `y = 0` (the single extra member sits exactly on
the center line, offset `(i - 3 - (n-4)/2) = 0`), while the claimed
Line-style rule `(i - 3 - (n-3)/2)` would place it at `y = -5/4`. -/
theorem triangle_extra_claim_false :
    (triangle_formation ⟨0, 0, 10⟩ 5 4).getD 3 ⟨0, 0, 0⟩ = ⟨-10, 0, 10⟩ ∧
    triangleClaimedExtra ⟨0, 0, 10⟩ 5 4 3 = ⟨-10, -5/4, 10⟩ ∧
    (triangle_formation ⟨0, 0, 10⟩ 5 4).getD 3 ⟨0, 0, 0⟩ ≠
      triangleClaimedExtra ⟨0, 0, 10⟩ 5 4 3 := by
  refine ⟨?_, ?_, ?_⟩
  · norm_num [triangle_formation, List.range']
  · norm_num [triangleClaimedExtra]
  · intro h
    rw [show (triangle_formation ⟨0, 0, 10⟩ 5 4).getD 3 ⟨0, 0, 0⟩ =
        ⟨-10, 0, 10⟩ by norm_num [triangle_formation, List.range'],
      show triangleClaimedExtra ⟨0, 0, 10⟩ 5 4 3 = ⟨-10, -5/4, 10⟩ by
        norm_num [triangleClaimedExtra]] at h
    have hy := congrArg Vec3.y h
    norm_num at hy

/-- C6 amended: for every count `n` and slot `3 ≤ i < n`, the Triangle
pattern places slot `i` at `x = center.x - 2*spacing`, with its
y-coordinate spread in steps of `spacing/2` by the offset rule
`i - 3 - (n-4)/2` (offset index minus half of the number of extra members
minus one, real-valued division), which centers the extra row symmetrically
around `center.y`. -/
theorem triangle_extra_row (c : Vec3) (s : ℚ) (n i : ℕ) (h3 : 3 ≤ i)
    (hn : i < n) :
    (triangle_formation c s n).getD i ⟨0, 0, 0⟩ =
      ⟨c.x - 2 * s, c.y + ((i : ℚ) - 3 - ((n : ℚ) - 4) / 2) * s / 2,
       c.z⟩ := by
  have h1 : 1 ≤ n := by omega
  have h2 : 2 ≤ n := by omega
  have h3n : 3 ≤ n := by omega
  unfold triangle_formation
  rw [if_pos h1, if_pos h2, if_pos h3n]
  obtain ⟨j, rfl⟩ : ∃ j, i = j + 3 := ⟨i - 3, by omega⟩
  rw [List.append_assoc, List.append_assoc, List.singleton_append,
    List.singleton_append, List.singleton_append, List.getD_cons_succ,
    List.getD_cons_succ, List.getD_cons_succ]
  have hj : j < n - 3 := by omega
  rw [List.getD_eq_getElem?_getD, List.getElem?_map, List.getElem?_range']
  · simp
  · exact hj

/-- Witness for `triangle_extra_row` at center `(0,0,10)`, spacing 5,
5 vehicles, slot 3. -/
theorem triangle_extra_row_witness :
    (3 : ℕ) ≤ 3 ∧ (3 : ℕ) < 5 ∧
    (triangle_formation ⟨0, 0, 10⟩ 5 5).getD 3 ⟨0, 0, 0⟩ =
      ⟨(0 : ℚ) - 2 * 5,
       (0 : ℚ) + ((3 : ℚ) - 3 - ((5 : ℚ) - 4) / 2) * 5 / 2, 10⟩ :=
  ⟨by omega, by omega,
   triangle_extra_row ⟨0, 0, 10⟩ 5 5 3 (by omega) (by omega)⟩

/-! ### Mode recognition (`set_mode`, C7) and landing loop (C9)

`DroneController.set_mode` (flight_controller.py 35-59) checks the mode
name against its `mode_mapping` dictionary and only then calls
`set_mode_send`.  `FormationDrone.set_mode` (Drone.py 72-83) performs no
such check: whenever `self.connected` holds it sends a `SetMode` request
carrying the raw mode string and returns the asynchronous ack
(`mode_sent`); disconnected it returns false without sending.  Both are
embedded as (returned boolean, optional transport payload sent).
-/

/-- The `mode_mapping` dictionary of flight_controller.py 39-45. -/
def mode_mapping : List (String × ℕ) :=
  [("STABILIZE", 0), ("GUIDED", 4), ("LAND", 9), ("RTL", 6), ("LOITER", 5)]

namespace DroneController

/-- `DroneController.set_mode`: unknown names return false without a
transport call; known names send the mapped numeric mode and return true
(the 2-second sleep is irrelevant to the results and omitted). -/
def set_mode (mode : String) : Bool × Option ℕ :=
  match mode_mapping.lookup mode with
  | none => (false, none)
  | some code => (true, some code)

/-- The `while True` loop of `DroneController.land`
(flight_controller.py 171-177) over heartbeat telemetry: `none` a receive
timeout, `some armed` a HEARTBEAT whose `MAV_MODE_FLAG_SAFETY_ARMED` bit is
`armed`.  The result is what the loop has returned after consuming the
stream: `some true` when a disarmed heartbeat arrived, `none` when the loop
is still running (it has no timeout and no false-returning branch). -/
def landLoop : List (Option Bool) → Option Bool
  | [] => none
  | none :: ms => landLoop ms
  | some armed :: ms => if armed then landLoop ms else some true

/-- `DroneController.land` (flight_controller.py 166-177): commands LAND
mode, then polls heartbeats until one shows the armed bit cleared. -/
def land (msgs : List (Option Bool)) : (Bool × Option ℕ) × Option Bool :=
  (set_mode "LAND", landLoop msgs)

end DroneController

namespace FormationDrone

/-- `FormationDrone.set_mode` (Drone.py 72-83): `ack` is the asynchronous
`mode_sent` result of the MAVROS service call (false also covers a service
timeout, where `future.result()` is falsy). -/
def set_mode (connected : Bool) (mode : String) (ack : Bool) :
    Bool × Option String :=
  if connected then (ack, some mode) else (false, none)

end FormationDrone

/-- C7 counterexample: `FormationDrone.set_mode`, one of the program's
vehicle-session `setMode` implementations, performs a transport send for
the unrecognized mode name "FLIP" whenever the vehicle is connected (and
even returns true if the transport acks), refuting "returns false without
performing any transport send ... for every vehicle-session implementation
of setMode in the program". -/
theorem fd_set_mode_sends_unknown :
    mode_mapping.lookup "FLIP" = none ∧
    (FormationDrone.set_mode true "FLIP" true).2 = some "FLIP" ∧
    (FormationDrone.set_mode true "FLIP" true).1 = true :=
  ⟨by decide, rfl, rfl⟩

/-- C7 amended: `DroneController.set_mode` returns false without sending
for every unrecognized mode name and sends only for recognized ones;
`FormationDrone.set_mode`, however, performs no name check — it sends the
raw mode string exactly when the vehicle is connected, and only a
disconnected vehicle makes it return false without sending. -/
theorem set_mode_unknown_rejected (mode : String) (connected ack : Bool) :
    (mode_mapping.lookup mode = none →
      DroneController.set_mode mode = (false, none)) ∧
    ((DroneController.set_mode mode).2.isSome ↔
      (mode_mapping.lookup mode).isSome) ∧
    (FormationDrone.set_mode connected mode ack).2 =
      (if connected then some mode else none) := by
  refine ⟨fun h => ?_, ?_, ?_⟩
  · unfold DroneController.set_mode
    rw [h]
  · unfold DroneController.set_mode
    cases mode_mapping.lookup mode <;> simp
  · unfold FormationDrone.set_mode
    cases connected <;> simp

/-- Witness for `set_mode_unknown_rejected` at the unrecognized name
"FLIP". -/
theorem set_mode_unknown_rejected_witness :
    DroneController.set_mode "FLIP" = (false, none) :=
  (set_mode_unknown_rejected "FLIP" true true).1 (by decide)

lemma landLoop_eq (msgs : List (Option Bool)) :
    DroneController.landLoop msgs =
      if some false ∈ msgs then some true else none := by
  induction msgs with
  | nil => simp [DroneController.landLoop]
  | cons m ms ih =>
    cases m with
    | none => simp [DroneController.landLoop, ih]
    | some armed =>
      cases armed with
      | false => simp [DroneController.landLoop]
      | true => simp [DroneController.landLoop, ih]

/-- C9: after commanding LAND mode (a recognized mode, numeric code 9),
`DroneController.land` returns — with value true — exactly when a
heartbeat with the armed flag cleared is observed; on a stream with no
disarmed heartbeat it is still looping after any finite prefix (`none`),
having no timeout and no false-returning branch. -/
theorem land_returns_iff_disarmed (msgs : List (Option Bool)) :
    ((DroneController.land msgs).2 = some true ↔ some false ∈ msgs) ∧
    ((DroneController.land msgs).2 = none ↔ some false ∉ msgs) ∧
    (DroneController.land msgs).2 ≠ some false ∧
    (DroneController.land msgs).1 = (true, some 9) := by
  unfold DroneController.land
  rw [landLoop_eq]
  by_cases h : some false ∈ msgs
  · simp [h]
    decide
  · simp [h]
    decide

/-! ### `wait_for_connections` (Drone.py 201-217, C10)

The loop polls `drone.connected` over all registered drones and spins for
about one second per iteration (`rclpy.spin_once(..., timeout_sec=1.0)`);
time is idealised as elapsed = k seconds at the k-th loop test, so the
`while (time.time() - start_time) < timeout` guard becomes `k < timeout`.
`conn k i` is drone `i`'s connected flag at poll `k`; the result pairs the
returned boolean with the number of connection polls performed. -/

/-- The polling loop of `wait_for_connections`; the fuel argument only
bounds the recursion and exceeds the possible number of iterations. -/
def wfcLoop (conn : ℕ → ℕ → Bool) (n : ℕ) (timeout : ℚ) :
    ℕ → ℕ → Bool × ℕ
  | 0, k => (false, k)
  | fuel + 1, k =>
    if (k : ℚ) < timeout then
      if ((List.range n).countP fun i => conn k i) = n then (true, k + 1)
      else wfcLoop conn n timeout fuel (k + 1)
    else (false, k)

/-- `wait_for_connections` (Drone.py 201-217) with `n` registered drones
and the given timeout in seconds. -/
def wait_for_connections (conn : ℕ → ℕ → Bool) (n : ℕ) (timeout : ℚ) :
    Bool × ℕ :=
  wfcLoop conn n timeout (⌈timeout⌉.toNat + 1) 0

/-- C10 counterexample: at `timeout = 0` the `while` guard `elapsed <
timeout` fails before the first poll, so with zero registered vehicles
`wait_for_connections` returns false after zero polls — the claim's "for
every timeout value" does not hold. -/
theorem wait_for_connections_zero_timeout :
    wait_for_connections (fun _ _ => false) 0 0 = (false, 0) := by
  unfold wait_for_connections
  norm_num
  rfl

/-- C10 amended: with zero registered vehicles and any positive timeout,
`wait_for_connections` returns true on its very first poll (the connected
count 0 vacuously equals the vehicle count 0); for `timeout ≤ 0` the
deadline check fails before any poll and it returns false. -/
theorem wait_for_connections_no_drones (conn : ℕ → ℕ → Bool) (timeout : ℚ)
    (h : 0 < timeout) :
    wait_for_connections conn 0 timeout = (true, 1) := by
  unfold wait_for_connections
  have hstep : wfcLoop conn 0 timeout (⌈timeout⌉.toNat + 1) 0 =
      if ((0 : ℕ) : ℚ) < timeout then
        (if ((List.range 0).countP fun i => conn 0 i) = 0 then (true, 0 + 1)
         else wfcLoop conn 0 timeout ⌈timeout⌉.toNat (0 + 1))
      else (false, 0) := rfl
  rw [hstep]
  simp [h]

/-- Witness for `wait_for_connections_no_drones` at the default timeout
of 30 seconds. -/
theorem wait_for_connections_no_drones_witness :
    (0 : ℚ) < 30 ∧
      wait_for_connections (fun _ _ => false) 0 30 = (true, 1) :=
  ⟨by norm_num, wait_for_connections_no_drones (fun _ _ => false) 30
    (by norm_num)⟩
